import Mathlib

/-!
A shallow embedding of the event-subscription engine of the i3ipc-go
repository (file `subscribe.go`) and proofs about it.

Modelling conventions:
* Go package-level mutable state (`payloads`, `eventSockets`) is passed
  explicitly as values.
* `encoding/json` payloads are modelled as an already-parsed JSON value
  tree `Json`; `json.Unmarshal` into each Go struct is modelled by an
  explicit decoding function following Go's semantics (object fields
  matched case-insensitively, missing fields left at their zero value,
  `null` leaving the zero value in place, any shape mismatch an error).
* `log.Fatal` / `log.Fatalf` (process abort) is modelled by an explicit
  `fatal` / `aborted` outcome.
* The transport collaborator (`socket.Raw`, `socket.recv`) is out of
  scope of the source file and is modelled as an oracle parameter.
* Go channels are modelled by `GoChan`; the readiness of a concurrently
  running consumer at each non-blocking send attempt is modelled by a
  Boolean acceptance oracle.
-/

/-- Parsed JSON values, the model of a raw `[]byte` payload that
`encoding/json` would operate on. Numbers are modelled as integers,
which suffices for every claim. -/
inductive Json where
  | null
  | bool (b : Bool)
  | num (n : Int)
  | str (s : String)
  | arr (xs : List Json)
  | obj (fields : List (String × Json))

/-- Case-insensitive string comparison, the ASCII core of Go's
`strings.EqualFold` used by `encoding/json` field matching. -/
def eqFold (a b : String) : Bool :=
  a.data.map Char.toLower == b.data.map Char.toLower

/-- Go `encoding/json` field matching: the struct field name is matched
against object keys case-insensitively; with duplicate keys the later
value wins. -/
def lookupField (fs : List (String × Json)) (name : String) : Option Json :=
  fs.foldl (fun acc p => if eqFold p.1 name then some p.2 else acc) none

/-- `json.Unmarshal` into a Go `string`: a JSON string succeeds, `null`
leaves the zero value `""`, anything else is a type error. -/
def unmarshalString : Json → Except Unit String
  | .str s => .ok s
  | .null => .ok ""
  | _ => .error ()

/-- `json.Unmarshal` into a Go `bool`. -/
def unmarshalBool : Json → Except Unit Bool
  | .bool b => .ok b
  | .null => .ok false
  | _ => .error ()

/-- `json.Unmarshal` into a Go `int`. -/
def unmarshalInt : Json → Except Unit Int
  | .num n => .ok n
  | .null => .ok 0
  | _ => .error ()

/-- `json.Unmarshal` into a Go `[]string`. -/
def unmarshalStringList : Json → Except Unit (List String)
  | .null => .ok []
  | .arr xs => xs.foldr (fun x acc => do pure ((← unmarshalString x) :: (← acc))) (.ok [])
  | _ => .error ()

/-- Decode one struct field: absent fields keep the Go zero value. -/
def decodeField (fs : List (String × Json)) (name : String)
    (dec : Json → Except Unit α) (zero : α) : Except Unit α :=
  match lookupField fs name with
  | none => .ok zero
  | some v => dec v

/-- `EventType` from the source: a Go `int32` enumeration value. -/
abbrev EventType := Int

def I3WorkspaceEvent : EventType := 0
def I3OutputEvent : EventType := 1
def I3ModeEvent : EventType := 2
def I3WindowEvent : EventType := 3
def I3BarConfigUpdateEvent : EventType := 4
def I3BindingEvent : EventType := 5

/-- The private sentinel `eventmax` from the source's `const` block. -/
def eventmax : EventType := 6

/-- The initial value of the package-level `payloads` slice mapping
event types to their string representation. -/
def initialPayloads : List String :=
  ["workspace", "output", "mode", "window", "barconfig_update", "binding"]

/-- `AddEventType` from the source: appends `name` to `payloads` and
returns the `EventType` assigned to it (`len(payloads) - 1` after the
append). The mutation of the global slice is modelled by returning the
new slice. -/
def AddEventType (payloads : List String) (name : String) :
    List String × EventType :=
  let ps := payloads ++ [name]
  (ps, Int.ofNat ps.length - 1)

/-- `BaseEvent` from the source: used when no specific event is known. -/
structure BaseEvent where
  Change : String

/-- Modelled from the spec: the node snapshot type `I3Node` is declared
outside the given source file; the spec describes it only as a node
snapshot whose example carries an integer id (§8), so it is modelled
with an id and a name. Its exact field set does not decide any claim:
the claims about specific decoders quantify over decode success or
failure, not over node contents. -/
structure I3Node where
  Id : Int
  Name : String

/-- `WorkspaceEvent` from the source. -/
structure WorkspaceEvent where
  Change : String
  Current : I3Node
  Old : I3Node

/-- `ModeEvent` from the source. -/
structure ModeEvent where
  Change : String
  PangoMarkup : Bool

/-- `WindowEvent` from the source. -/
structure WindowEvent where
  Change : String
  Container : I3Node

/-- `Binding` from the source. -/
structure Binding where
  Command : String
  EventStateMask : List String
  InputCode : Int
  Symbol : String
  InputType : String

/-- `BindingEvent` from the source. -/
structure BindingEvent where
  Change : String
  Binding : Binding

/-- The possible values of the `interface{}` field `Event.Details`. -/
inductive Detail where
  | base (d : BaseEvent)
  | workspace (d : WorkspaceEvent)
  | mode (d : ModeEvent)
  | window (d : WindowEvent)
  | binding (d : BindingEvent)

/-- `Event` from the source; the field `Type` is renamed `type` because
`Type` is a Lean keyword. -/
structure Event where
  type : EventType
  Details : Detail
  Change : String

def unmarshalI3Node : Json → Except Unit I3Node
  | .null => .ok ⟨0, ""⟩
  | .obj fs => do
      pure ⟨← decodeField fs "Id" unmarshalInt 0,
            ← decodeField fs "Name" unmarshalString ""⟩
  | _ => .error ()

def unmarshalBaseEvent : Json → Except Unit BaseEvent
  | .null => .ok ⟨""⟩
  | .obj fs => do pure ⟨← decodeField fs "Change" unmarshalString ""⟩
  | _ => .error ()

def unmarshalWorkspaceEvent : Json → Except Unit WorkspaceEvent
  | .null => .ok ⟨"", ⟨0, ""⟩, ⟨0, ""⟩⟩
  | .obj fs => do
      pure ⟨← decodeField fs "Change" unmarshalString "",
            ← decodeField fs "Current" unmarshalI3Node ⟨0, ""⟩,
            ← decodeField fs "Old" unmarshalI3Node ⟨0, ""⟩⟩
  | _ => .error ()

def unmarshalModeEvent : Json → Except Unit ModeEvent
  | .null => .ok ⟨"", false⟩
  | .obj fs => do
      pure ⟨← decodeField fs "Change" unmarshalString "",
            ← decodeField fs "PangoMarkup" unmarshalBool false⟩
  | _ => .error ()

def unmarshalWindowEvent : Json → Except Unit WindowEvent
  | .null => .ok ⟨"", ⟨0, ""⟩⟩
  | .obj fs => do
      pure ⟨← decodeField fs "Change" unmarshalString "",
            ← decodeField fs "Container" unmarshalI3Node ⟨0, ""⟩⟩
  | _ => .error ()

def unmarshalBinding : Json → Except Unit Binding
  | .null => .ok ⟨"", [], 0, "", ""⟩
  | .obj fs => do
      pure ⟨← decodeField fs "Command" unmarshalString "",
            ← decodeField fs "EventStateMask" unmarshalStringList [],
            ← decodeField fs "InputCode" unmarshalInt 0,
            ← decodeField fs "Symbol" unmarshalString "",
            ← decodeField fs "InputType" unmarshalString ""⟩
  | _ => .error ()

def unmarshalBindingEvent : Json → Except Unit BindingEvent
  | .null => .ok ⟨"", ⟨"", [], 0, "", ""⟩⟩
  | .obj fs => do
      pure ⟨← decodeField fs "Change" unmarshalString "",
            ← decodeField fs "Binding" unmarshalBinding ⟨"", [], 0, "", ""⟩⟩
  | _ => .error ()

/-- The `switch e.Type` of the source's `addDetails`: decode the raw
payload by category, producing the `Details` value and the flat
`change` string, or the `json.Unmarshal` error. Categories without a
specific case (`I3OutputEvent`, `I3BarConfigUpdateEvent`, and every
other id) take the `default` branch decoding a `BaseEvent`. -/
def decodeDetail (ty : EventType) (raw : Json) : Except Unit (Detail × String) :=
  if ty = I3WorkspaceEvent then
    (unmarshalWorkspaceEvent raw).map (fun d => (.workspace d, d.Change))
  else if ty = I3ModeEvent then
    (unmarshalModeEvent raw).map (fun d => (.mode d, d.Change))
  else if ty = I3WindowEvent then
    (unmarshalWindowEvent raw).map (fun d => (.window d, d.Change))
  else if ty = I3BindingEvent then
    (unmarshalBindingEvent raw).map (fun d => (.binding d, d.Change))
  else
    (unmarshalBaseEvent raw).map (fun d => (.base d, d.Change))

/-- Outcome of code that may call `log.Fatal`: `fatal` models the whole
process aborting. -/
inductive FatalOr (α : Type) where
  | ok (a : α)
  | fatal

/-- `addDetails` from the source: on a decode error it calls
`log.Fatal(err)` (process abort); otherwise it fills `Details` and the
deprecated flat `Change` field of the event. -/
def addDetails (ty : EventType) (raw : Json) : FatalOr Event :=
  match decodeDetail ty raw with
  | .error _ => .fatal
  | .ok (d, c) => .ok ⟨ty, d, c⟩

/-- A Go channel of `Event`: its capacity, buffered contents, and
whether a receiver is currently blocked waiting on it (the rendezvous
partner a send on an unbuffered channel needs). -/
structure GoChan where
  cap : Nat
  buf : List Event
  receiverWaiting : Bool

/-- `make(chan Event)` from `Subscribe`: an unbuffered channel. -/
def makeChan : GoChan := ⟨0, [], false⟩

/-- Go semantics of a non-blocking send (`select` with a `default`
case): the send succeeds immediately if a receiver is blocked waiting,
or if the buffer has a free slot; otherwise the `default` case is
taken and the value is dropped. -/
def GoChan.trySend (c : GoChan) (e : Event) : Bool × GoChan :=
  if c.receiverWaiting then (true, { c with receiverWaiting := false })
  else if c.buf.length < c.cap then (true, { c with buf := c.buf ++ [e] })
  else (false, c)

/-- `IPCSocket` as used by `subscribe.go`: the subscriber set and the
`open` flag (renamed `openFlag`; `open` is a Lean keyword). The
transport connection itself is an external collaborator. -/
structure IPCSocket where
  subscribers : List GoChan
  openFlag : Bool

/-- The package-level mutable state touched by `Subscribe`: the
`payloads` registry and the `eventSockets` slice. -/
structure LibState where
  payloads : List String
  eventSockets : List IPCSocket

/-- Result of a `Subscribe` call: the returned channel (`none` models
Go's nil channel on the error path), the returned error message, the
resulting package state, and whether the call panicked (indexing
`eventSockets` out of range). -/
structure SubscribeOut where
  subs : Option GoChan
  err : Option String
  st : LibState
  panicked : Bool

/-- `Subscribe` from the source: validates `eventType` against the
constants `eventmax` and `0`, then appends a fresh unbuffered channel
to `eventSockets[eventType].subscribers`. -/
def Subscribe (st : LibState) (eventType : EventType) : SubscribeOut :=
  if eventType ≥ eventmax ∨ eventType < 0 then
    ⟨none, some "No such event type.", st, false⟩
  else
    match st.eventSockets.get? eventType.toNat with
    | none => ⟨none, none, st, true⟩
    | some sock =>
        let subs := makeChan
        let sock' := { sock with subscribers := sock.subscribers ++ [subs] }
        ⟨some subs, none, { st with eventSockets := st.eventSockets.set eventType.toNat sock' }, false⟩

/-- The message structure produced by the transport's `recv`, as read
by `listen`: the event flag, the raw type id and the payload bytes. -/
structure Message where
  isEvent : Bool
  msgType : Int
  payload : Json

/-- One `socket.recv()` outcome inside `listen`: a transport-level
error, or a message. -/
inductive RecvResult where
  | recvErr
  | msg (m : Message)

/-- Whether a received frame survives the two `continue` filters at the
top of the `listen` loop body: it was received without error and is
classified as an event. -/
def isEventFrame : RecvResult → Bool
  | .recvErr => false
  | .msg m => m.isEvent

/-- The body of one `listen` iteration up to broadcasting: a receive
error or a non-event message is dropped (`continue`, modelled as
`ok none`); an event frame is decoded by `addDetails`, which either
aborts the process or yields the event to broadcast. -/
def listenStep : RecvResult → FatalOr (Option Event)
  | .recvErr => .ok none
  | .msg m =>
      if m.isEvent then
        match addDetails m.msgType m.payload with
        | .fatal => .fatal
        | .ok e => .ok (some e)
      else .ok none

/-- The inner `for _, subscriber := range socket.subscribers` loop of
`listen`, as a delivery log: subscribers are identified by their index
in the subscriber set, and `accept s k` says whether subscriber `s`'s
channel can take the value at broadcast attempt number `k` (its
consumer is ready); an accepted send is logged, a refused one hits the
`default` case and is dropped. `n` is the size of the subscriber set. -/
def broadcastLog (accept : Nat → Nat → Bool) (k : Nat) (e : Event) : Nat → List (Nat × Event)
  | 0 => []
  | n + 1 => broadcastLog accept k e n ++ (if accept n k then [(n, e)] else [])

/-- Outcome of running `listen` over a finite prefix of the transport
stream: the chronological delivery log (subscriber index, event), and
whether the process aborted (`log.Fatal` in `addDetails`). On abort the
log stops at the aborting frame. -/
structure RunResult where
  log : List (Nat × Event)
  aborted : Bool

/-- `listen` over a list of receive outcomes, for a subscriber set of
size `nsubs` attached before the first frame; `k` counts broadcast
attempts made so far (the index the acceptance oracle is keyed by). -/
def listenRunAux (accept : Nat → Nat → Bool) (nsubs : Nat) (k : Nat) :
    List RecvResult → RunResult
  | [] => ⟨[], false⟩
  | f :: fs =>
    match listenStep f with
    | .fatal => ⟨[], true⟩
    | .ok none => listenRunAux accept nsubs k fs
    | .ok (some e) =>
        let r := listenRunAux accept nsubs (k + 1) fs
        ⟨broadcastLog accept k e nsubs ++ r.log, r.aborted⟩

/-- `listen` from the first frame, attempt counter starting at zero. -/
def listenRun (accept : Nat → Nat → Bool) (nsubs : Nat)
    (frames : List RecvResult) : RunResult :=
  listenRunAux accept nsubs 0 frames

/-- The events the `listen` loop decodes from a stream, in order,
ignoring dropped frames (and skipping any aborting frame — meaningful
for streams on which the run does not abort). -/
def okEvents : List RecvResult → List Event
  | [] => []
  | f :: fs =>
    match listenStep f with
    | .ok (some e) => e :: okEvents fs
    | _ => okEvents fs

/-- The sub-sequence of `events` a consumer with acceptance oracle
`accept` receives when the broadcast attempts are numbered from `k`. -/
def deliveredTo (accept : Nat → Bool) (k : Nat) : List Event → List Event
  | [] => []
  | e :: es =>
      if accept k then e :: deliveredTo accept (k + 1) es
      else deliveredTo accept (k + 1) es

/-- The events subscriber `s` received, extracted from a delivery log. -/
def receivedBy (log : List (Nat × Event)) (s : Nat) : List Event :=
  (log.filter (fun p => p.1 == s)).map Prod.snd

/-- A small concrete transport stream used to exercise the listen loop:
two well-formed mode event frames around a transport receive error. -/
def sampleFrames : List RecvResult :=
  [RecvResult.msg ⟨true, I3ModeEvent, Json.obj [("change", Json.str "default")]⟩,
   RecvResult.recvErr,
   RecvResult.msg ⟨true, I3ModeEvent, Json.null⟩]

/-- A concrete acceptance oracle for two subscribers: subscriber 0 is
ready only at the first broadcast attempt, subscriber 1 always. -/
def sampleAccept (s i : Nat) : Bool :=
  (s == 0 && i == 0) || s == 1

/-- The `subscribeReply` struct of the source has the single field
`Success bool`; this is `json.Unmarshal` into it. -/
def unmarshalSubscribeReply : Json → Except Unit Bool
  | .null => .ok false
  | .obj fs => decodeField fs "Success" unmarshalBool false
  | _ => .error ()

/-- How the private `subscribe` method can fail: the transport `Raw`
call returned an error, `json.Unmarshal` of the reply failed, or the
reply carried `Success == false` (the `SubscribeError` path the spec
calls `SubscriptionRejected`). -/
inductive SubErr where
  | rawError
  | jsonError
  | rejected

/-- The subscribe request body built by the source:
`"[\"" + payloads[eventType] + "\"]"`. -/
def subscribeRequestBody (name : String) : String :=
  "[\"" ++ name ++ "\"]"

/-- What a run of the private `subscribe` method did: the request body
it sent over `Raw`, and its returned error, if any. -/
structure HandshakeOut where
  request : String
  err : Option SubErr

/-- The private `(socket *IPCSocket).subscribe` method. `raw` is the
transport oracle standing for `socket.Raw(I3Subscribe, body)`: it maps
the request body to either a transport error or the reply bytes
(modelled parsed). Indexing `payloads[eventType]` out of range is a Go
panic, modelled as `none`. -/
def subscribe (payloads : List String) (eventType : Nat)
    (raw : String → Except Unit Json) : Option HandshakeOut :=
  match payloads[eventType]? with
  | none => none
  | some name =>
      let body := subscribeRequestBody name
      let e :=
        match raw body with
        | .error _ => some SubErr.rawError
        | .ok reply =>
            match unmarshalSubscribeReply reply with
            | .error _ => some SubErr.jsonError
            | .ok success => if success then none else some SubErr.rejected
      some ⟨body, e⟩

/-- Outcome of `StartEventListener`: whether the process aborted
(`log.Fatalf`), how many sockets had been created and how many
listener tasks had been started by then, and the final `eventSockets`
slice. -/
structure StartupOutcome where
  fatal : Bool
  socketsCreated : Nat
  listenersStarted : Nat
  eventSockets : List IPCSocket

/-- The `for ; ev < eventmax; ev++` loop of `StartEventListener`,
iterating over the remaining event types. `getSock` is the
`GetIPCSocket()` oracle (`none` is a connection error, fatal); `raw`
gives each event type's transport oracle for the handshake. On a
handshake error the process aborts; on success the listener task is
started and the socket appended to `eventSockets`. -/
def startupLoop (ps : List String) (getSock : Nat → Option IPCSocket)
    (raw : Nat → String → Except Unit Json) (acc : List IPCSocket)
    (started : Nat) : List Nat → StartupOutcome
  | [] => ⟨false, acc.length, started, acc⟩
  | ev :: rest =>
    match getSock ev with
    | none => ⟨true, acc.length, started, acc⟩
    | some sock =>
      match subscribe ps ev (raw ev) with
      | none => ⟨true, acc.length + 1, started, acc⟩
      | some out =>
        match out.err with
        | some _ => ⟨true, acc.length + 1, started, acc⟩
        | none => startupLoop ps getSock raw (acc ++ [sock]) (started + 1) rest

/-- `StartEventListener` from the source: first the payload-count
invariant check `len(payloads) != int(eventmax)` (fatal on mismatch,
before any socket is created or listener started), then the per-type
loop. -/
def StartEventListener (ps : List String) (getSock : Nat → Option IPCSocket)
    (raw : Nat → String → Except Unit Json) : StartupOutcome :=
  if ps.length ≠ eventmax.toNat then ⟨true, 0, 0, []⟩
  else startupLoop ps getSock raw [] 0 (List.range eventmax.toNat)

/-- C9: registering a category with `AddEventType` returns an id equal
to the registry's size before the call, and looking that id up in the
resulting registry returns exactly the registered name. -/
theorem addEventType_roundtrip (ps : List String) (name : String) :
    (AddEventType ps name).2 = (ps.length : Int) ∧
    (AddEventType ps name).1.get? ps.length = some name := by
  constructor
  · simp [AddEventType]
  · simp [AddEventType, List.getElem?_concat_length]

/-- C5: if at startup the registered payload count differs from the
compiled expectation `eventmax`, `StartEventListener` aborts fatally
with zero sockets created and zero listener tasks started. -/
theorem startup_count_mismatch_fatal (ps : List String)
    (getSock : Nat → Option IPCSocket) (raw : Nat → String → Except Unit Json)
    (h : ps.length ≠ eventmax.toNat) :
    (StartEventListener ps getSock raw).fatal = true ∧
    (StartEventListener ps getSock raw).socketsCreated = 0 ∧
    (StartEventListener ps getSock raw).listenersStarted = 0 ∧
    (StartEventListener ps getSock raw).eventSockets = [] := by
  simp [StartEventListener, h]

/-- Witness for C5 at a concrete mismatched registry. -/
theorem startup_count_mismatch_fatal_witness :
    (["workspace"] : List String).length ≠ eventmax.toNat ∧
    (StartEventListener ["workspace"] (fun _ => none)
      (fun _ _ => Except.error ())).fatal = true :=
  ⟨by decide,
   (startup_count_mismatch_fatal ["workspace"] (fun _ => none)
      (fun _ _ => Except.error ()) (by decide)).1⟩

/-- C6: for a category id that is negative or at least the registered
category count, `Subscribe` fails with the `SubscribeError`
"No such event type.", returns a nil channel, and leaves the state
(in particular every subscriber set) unchanged. The hypothesis
`6 ≤ st.payloads.length` is the registry invariant: `payloads` starts
with the six built-ins and `AddEventType` only appends. -/
theorem subscribe_invalid_category (st : LibState) (ty : EventType)
    (hreg : 6 ≤ st.payloads.length)
    (h : ty < 0 ∨ (st.payloads.length : Int) ≤ ty) :
    (Subscribe st ty).err = some "No such event type." ∧
    (Subscribe st ty).subs = none ∧
    (Subscribe st ty).st = st ∧
    (Subscribe st ty).panicked = false := by
  have hcond : ty ≥ eventmax ∨ ty < 0 := by
    rcases h with h | h
    · exact Or.inr h
    · left
      have h6 : (6 : Int) ≤ (st.payloads.length : Int) := by exact_mod_cast hreg
      show (6 : Int) ≤ ty
      exact le_trans h6 h
  simp [Subscribe, hcond]

/-- Witness for C6 at the initial registry and id 6. -/
theorem subscribe_invalid_category_witness :
    6 ≤ (LibState.mk initialPayloads []).payloads.length ∧
    ((6 : Int) < 0 ∨ ((LibState.mk initialPayloads []).payloads.length : Int) ≤ 6) ∧
    (Subscribe (LibState.mk initialPayloads []) 6).err = some "No such event type." :=
  ⟨by decide, Or.inr (by decide),
   (subscribe_invalid_category (LibState.mk initialPayloads []) 6
      (by decide) (Or.inr (by decide))).1⟩

/-- C2 counterexample: after one runtime registration the registry has
seven entries, so id 6 lies in `[0, registeredCount)`, yet `Subscribe`
rejects it with the invalid-category error and returns no queue,
because the bound check uses the compiled constant `eventmax`, not the
live registry size. -/
theorem subscribe_runtime_category_counterexample :
    ((0 : Int) ≤ 6 ∧
      (6 : Int) < (((AddEventType initialPayloads "extension").1).length : Int)) ∧
    (Subscribe ⟨(AddEventType initialPayloads "extension").1, []⟩ 6).err =
      some "No such event type." ∧
    (Subscribe ⟨(AddEventType initialPayloads "extension").1, []⟩ 6).subs = none :=
  ⟨by decide, rfl, rfl⟩

/-- C2 amended: `Subscribe` validates its category id against the
compiled built-in range `[0, eventmax)`, not the live registry range.
An id in the compiled range whose event socket exists (as after
startup) succeeds: no error, a fresh unbuffered queue is returned, and
that queue is appended to the bound socket's subscriber set. Any id at
or beyond `eventmax` — in particular every category registered at
runtime — fails with the invalid-category error. -/
theorem subscribe_validates_against_eventmax (st : LibState) (ty : EventType)
    (sock : IPCSocket)
    (h0 : 0 ≤ ty) (h1 : ty < eventmax)
    (hget : st.eventSockets[ty.toNat]? = some sock) :
    ((Subscribe st ty).err = none ∧
     (Subscribe st ty).subs = some makeChan ∧
     (Subscribe st ty).panicked = false ∧
     (Subscribe st ty).st.payloads = st.payloads ∧
     (Subscribe st ty).st.eventSockets =
       st.eventSockets.set ty.toNat
         { sock with subscribers := sock.subscribers ++ [makeChan] }) ∧
    (∀ ty2 : EventType, eventmax ≤ ty2 →
      (Subscribe st ty2).err = some "No such event type." ∧
      (Subscribe st ty2).subs = none ∧ (Subscribe st ty2).st = st) := by
  constructor
  · have hcond : ¬(ty ≥ eventmax ∨ ty < 0) := by
      push_neg
      exact ⟨h1, h0⟩
    simp [Subscribe, hcond, hget]
  · intro ty2 hty2
    have hcond : ty2 ≥ eventmax ∨ ty2 < 0 := Or.inl hty2
    simp [Subscribe, hcond]

/-- Witness for the amended C2 at a started-up state and id 0. -/
theorem subscribe_validates_against_eventmax_witness :
    ((0 : Int) ≤ 0 ∧ (0 : Int) < eventmax ∧
      (LibState.mk initialPayloads [⟨[], true⟩]).eventSockets[(0 : Int).toNat]? =
        some ⟨[], true⟩) ∧
    (Subscribe (LibState.mk initialPayloads [⟨[], true⟩]) 0).err = none ∧
    (Subscribe (LibState.mk initialPayloads [⟨[], true⟩]) 0).subs = some makeChan :=
  ⟨⟨le_refl 0, by decide, rfl⟩,
   (subscribe_validates_against_eventmax (LibState.mk initialPayloads [⟨[], true⟩])
      0 ⟨[], true⟩ (le_refl 0) (by decide) rfl).1.1,
   (subscribe_validates_against_eventmax (LibState.mk initialPayloads [⟨[], true⟩])
      0 ⟨[], true⟩ (le_refl 0) (by decide) rfl).1.2.1⟩

/-- C3 counterexample: the output category (id 1) has no specific
decoder entry, yet decoding an event frame whose payload is the JSON
number `5` is a decode failure — `json.Unmarshal` into the generic
`BaseEvent` rejects a non-object — and `addDetails` aborts the
process rather than succeeding with a generic Detail. -/
theorem generic_decode_counterexample :
    addDetails I3OutputEvent (Json.num 5) = FatalOr.fatal ∧
    decodeDetail I3OutputEvent (Json.num 5) = Except.error () :=
  ⟨rfl, rfl⟩

/-- C3 amended: every event frame whose category id has no specific
decoder entry — any id other than those of workspace, mode, window and
binding, so also the built-in output and bar-config-update ids and any
runtime-registered id — is decoded by the generic fallback; whenever
the payload unmarshals into the generic shape (`null`, or a JSON
object whose change field, if present, is a string), decoding succeeds
and yields the fallback Detail populated only with the flat change
field. Taking the fallback is itself never a failure, but a payload
the generic unmarshal rejects still fails, exactly as for the specific
decoders. -/
theorem generic_fallback_success (ty : EventType) (raw : Json) (d : BaseEvent)
    (hty : ty ≠ I3WorkspaceEvent ∧ ty ≠ I3ModeEvent ∧ ty ≠ I3WindowEvent ∧
      ty ≠ I3BindingEvent)
    (hdec : unmarshalBaseEvent raw = .ok d) :
    addDetails ty raw = .ok ⟨ty, .base d, d.Change⟩ := by
  obtain ⟨h1, h2, h3, h4⟩ := hty
  simp [addDetails, decodeDetail, h1, h2, h3, h4, hdec, Except.map]

/-- Witness for the amended C3: a bar-config-update frame (id 4, no
specific decoder) with an object payload decodes to the generic
Detail carrying only the change string. -/
theorem generic_fallback_success_witness :
    ((I3BarConfigUpdateEvent ≠ I3WorkspaceEvent ∧
      I3BarConfigUpdateEvent ≠ I3ModeEvent ∧
      I3BarConfigUpdateEvent ≠ I3WindowEvent ∧
      I3BarConfigUpdateEvent ≠ I3BindingEvent) ∧
     unmarshalBaseEvent (Json.obj [("change", Json.str "sloppy")]) =
       Except.ok ⟨"sloppy"⟩) ∧
    addDetails I3BarConfigUpdateEvent (Json.obj [("change", Json.str "sloppy")]) =
      FatalOr.ok ⟨I3BarConfigUpdateEvent, .base ⟨"sloppy"⟩, "sloppy"⟩ :=
  ⟨⟨by decide, rfl⟩,
   generic_fallback_success I3BarConfigUpdateEvent
     (Json.obj [("change", Json.str "sloppy")]) ⟨"sloppy"⟩ (by decide) rfl⟩

/-- Helper: once the `listen` loop reaches a frame on which
`listenStep` is fatal, the run is aborted and its log is exactly the
log of the prefix before that frame (when the prefix itself did not
abort). -/
theorem listenRunAux_fatal_frame (accept : Nat → Nat → Bool) (nsubs : Nat)
    (f : RecvResult) (hf : listenStep f = FatalOr.fatal)
    (pre post : List RecvResult) :
    ∀ k : Nat,
      (listenRunAux accept nsubs k (pre ++ f :: post)).aborted = true ∧
      ((listenRunAux accept nsubs k pre).aborted = false →
        (listenRunAux accept nsubs k (pre ++ f :: post)).log =
          (listenRunAux accept nsubs k pre).log) := by
  induction pre with
  | nil =>
      intro k
      simp [listenRunAux, hf]
  | cons g pre ih =>
      intro k
      cases hg : listenStep g with
      | fatal => simp [listenRunAux, hg]
      | ok o =>
          cases o with
          | none => simpa [listenRunAux, hg] using ih k
          | some e =>
              have := ih (k + 1)
              simp only [List.cons_append, listenRunAux, hg]
              refine ⟨this.1, fun hab => ?_⟩
              simp [this.1, this.2 hab]

/-- C4: an event frame whose payload does not match the expected
structure for its category is fatal to the whole process: the `listen`
run aborts, the failure is not skipped and not surfaced to subscribers
(no delivery is logged for that frame or for any later frame), and the
loop does not continue past it. -/
theorem decode_failure_fatal (accept : Nat → Nat → Bool) (nsubs : Nat)
    (pre post : List RecvResult) (m : Message)
    (hev : m.isEvent = true)
    (hfail : decodeDetail m.msgType m.payload = Except.error ()) :
    (listenRun accept nsubs (pre ++ RecvResult.msg m :: post)).aborted = true ∧
    ((listenRun accept nsubs pre).aborted = false →
      (listenRun accept nsubs (pre ++ RecvResult.msg m :: post)).log =
        (listenRun accept nsubs pre).log) := by
  have hf : listenStep (RecvResult.msg m) = FatalOr.fatal := by
    simp [listenStep, hev, addDetails, hfail]
  exact listenRunAux_fatal_frame accept nsubs _ hf pre post 0

/-- Witness for C4: a workspace frame with a non-object payload aborts
the run, with nothing delivered. -/
theorem decode_failure_fatal_witness :
    ((Message.mk true I3WorkspaceEvent (Json.num 3)).isEvent = true ∧
     decodeDetail (Message.mk true I3WorkspaceEvent (Json.num 3)).msgType
       (Message.mk true I3WorkspaceEvent (Json.num 3)).payload = Except.error ()) ∧
    (listenRun (fun _ _ => true) 1
      ([] ++ RecvResult.msg (Message.mk true I3WorkspaceEvent (Json.num 3)) :: [])).aborted
      = true :=
  ⟨⟨rfl, rfl⟩,
   (decode_failure_fatal (fun _ _ => true) 1 [] []
      (Message.mk true I3WorkspaceEvent (Json.num 3)) rfl rfl).1⟩

/-- C8: the per-category subscribe handshake sends the request body
`["<category-name>"]` built from the category's protocol name, parses
the reply as an object with a boolean `Success` field, and returns the
rejection error exactly when the reply parses successfully with
`Success == false`; a reply parsing with `Success == true` yields no
error. -/
theorem subscribe_handshake_spec (ps : List String) (ty : Nat) (name : String)
    (raw : String → Except Unit Json) (out : HandshakeOut)
    (hname : ps[ty]? = some name)
    (hout : subscribe ps ty raw = some out) :
    out.request = "[\"" ++ name ++ "\"]" ∧
    (out.err = some SubErr.rejected ↔
      ∃ reply, raw out.request = Except.ok reply ∧
        unmarshalSubscribeReply reply = Except.ok false) ∧
    (∀ reply, raw out.request = Except.ok reply →
      unmarshalSubscribeReply reply = Except.ok true → out.err = none) := by
  simp only [subscribe, hname, subscribeRequestBody, Option.some.injEq] at hout
  subst hout
  refine ⟨rfl, ?_, ?_⟩
  · constructor
    · intro hrej
      cases hraw : raw ("[\"" ++ name ++ "\"]") with
      | error e => simp [hraw] at hrej
      | ok reply =>
          refine ⟨reply, rfl, ?_⟩
          simp only [hraw] at hrej
          cases hrep : unmarshalSubscribeReply reply with
          | error e => simp [hrep] at hrej
          | ok success =>
              cases success with
              | true => simp [hrep] at hrej
              | false => rfl
    · rintro ⟨reply, hraw, hrep⟩
      simp only at hraw
      simp [hraw, hrep]
  · intro reply hraw hrep
    simp only at hraw
    simp [hraw, hrep]

/-- Witness for C8: the workspace handshake with a rejecting reply
sends `["workspace"]` and returns the rejection error. -/
theorem subscribe_handshake_spec_witness :
    (initialPayloads[(0 : Nat)]? = some "workspace" ∧
     subscribe initialPayloads 0
       (fun _ => Except.ok (Json.obj [("success", Json.bool false)])) =
       some ⟨"[\"workspace\"]", some SubErr.rejected⟩) ∧
    (HandshakeOut.mk "[\"workspace\"]" (some SubErr.rejected)).request =
      "[\"" ++ "workspace" ++ "\"]" ∧
    (HandshakeOut.mk "[\"workspace\"]" (some SubErr.rejected)).err =
      some SubErr.rejected :=
  ⟨⟨rfl, rfl⟩,
   (subscribe_handshake_spec initialPayloads 0 "workspace"
      (fun _ => Except.ok (Json.obj [("success", Json.bool false)]))
      (HandshakeOut.mk "[\"workspace\"]" (some SubErr.rejected)) rfl rfl).1,
   rfl⟩

/-- C10: every queue returned by a successful `Subscribe` call is the
channel built by `make(chan Event)` — capacity zero and an empty
buffer — and a non-blocking send on any zero-capacity channel succeeds
exactly when a receiver is already blocked waiting on it at the moment
of the attempt, the value being dropped otherwise. -/
theorem subscribe_queue_unbuffered (st : LibState) (ty : EventType) (q : GoChan)
    (hq : (Subscribe st ty).subs = some q) :
    q.cap = 0 ∧ q.buf = [] ∧
    (∀ c : GoChan, c.cap = 0 → ∀ e : Event,
      ((c.trySend e).1 = true ↔ c.receiverWaiting = true)) := by
  have hmake : q = makeChan := by
    unfold Subscribe at hq
    split at hq
    · simp at hq
    · split at hq
      · simp at hq
      · simp only [SubscribeOut.mk.injEq] at hq
        simp at hq
        exact hq.symm
  subst hmake
  refine ⟨rfl, rfl, ?_⟩
  intro c hc e
  unfold GoChan.trySend
  cases hw : c.receiverWaiting with
  | true => simp [hw]
  | false => simp [hw, hc]

/-- Witness for C10 at a started-up state and the workspace id. -/
theorem subscribe_queue_unbuffered_witness :
    (Subscribe (LibState.mk initialPayloads [⟨[], true⟩]) 0).subs = some makeChan ∧
    makeChan.cap = 0 ∧ makeChan.buf = [] :=
  ⟨rfl,
   (subscribe_queue_unbuffered (LibState.mk initialPayloads [⟨[], true⟩]) 0
      makeChan rfl).1,
   (subscribe_queue_unbuffered (LibState.mk initialPayloads [⟨[], true⟩]) 0
      makeChan rfl).2.1⟩

/-- Helper: extracting one subscriber's events distributes over log
concatenation. -/
theorem receivedBy_append (a b : List (Nat × Event)) (s : Nat) :
    receivedBy (a ++ b) s = receivedBy a s ++ receivedBy b s := by
  simp [receivedBy, List.filter_append]

/-- Helper: in the log of one broadcast, subscriber `s` appears with
the event exactly when `s` is in the subscriber set and its queue
accepted the send; every other subscriber's view is untouched. -/
theorem receivedBy_broadcastLog (accept : Nat → Nat → Bool) (k : Nat)
    (e : Event) (s : Nat) :
    ∀ n : Nat, receivedBy (broadcastLog accept k e n) s =
      if s < n ∧ accept s k then [e] else [] := by
  intro n
  induction n with
  | zero => simp [broadcastLog, receivedBy]
  | succ n ih =>
      rw [broadcastLog, receivedBy_append, ih]
      by_cases hank : accept n k
      · by_cases hsn : s = n
        · subst hsn
          by_cases ha : accept s k
          · simp [receivedBy, ha, hank]
          · exact absurd hank ha
        · have hns : (n == s) = false := by
            simp [Nat.beq_eq_true_eq]
            omega
          by_cases hs : s < n
          · have hs' : s < n + 1 := by omega
            simp [receivedBy, hank, hns, hs, hs']
          · have hs' : ¬s < n + 1 := by omega
            simp [receivedBy, hank, hns, hs, hs']
      · have hsn : s < n ∧ accept s k ↔ s < n + 1 ∧ accept s k := by
          constructor
          · rintro ⟨h1, h2⟩
            exact ⟨by omega, h2⟩
          · rintro ⟨h1, h2⟩
            refine ⟨?_, h2⟩
            rcases Nat.lt_succ_iff_lt_or_eq.mp h1 with h | h
            · exact h
            · subst h
              exact absurd h2 hank
        simp only [hank, hsn]
        simp [receivedBy]

/-- Helper: whether the listen run aborts depends only on the frames,
never on subscriber count or queue readiness. -/
theorem listenRunAux_aborted_oblivious (a a' : Nat → Nat → Bool)
    (n n' : Nat) :
    ∀ (frames : List RecvResult) (k k' : Nat),
      (listenRunAux a n k frames).aborted = (listenRunAux a' n' k' frames).aborted := by
  intro frames
  induction frames with
  | nil => intro k k'; rfl
  | cons f fs ih =>
      intro k k'
      cases hstep : listenStep f with
      | fatal => simp [listenRunAux, hstep]
      | ok o =>
          cases o with
          | none => simpa [listenRunAux, hstep] using ih k k'
          | some e => simpa [listenRunAux, hstep] using ih (k + 1) (k' + 1)

/-- Helper: on a non-aborting run, subscriber `s`'s received sequence
is exactly the events whose broadcast attempt its queue accepted, in
stream order. -/
theorem listenRunAux_receivedBy (accept : Nat → Nat → Bool) (nsubs s : Nat)
    (hs : s < nsubs) :
    ∀ (frames : List RecvResult) (k : Nat),
      (listenRunAux accept nsubs k frames).aborted = false →
      receivedBy (listenRunAux accept nsubs k frames).log s =
        deliveredTo (fun i => accept s i) k (okEvents frames) := by
  intro frames
  induction frames with
  | nil => intro k _; rfl
  | cons f fs ih =>
      intro k hab
      cases hstep : listenStep f with
      | fatal => simp [listenRunAux, hstep] at hab
      | ok o =>
          cases o with
          | none =>
              simp only [listenRunAux, hstep] at hab ⊢
              simpa [okEvents, hstep] using ih k hab
          | some e =>
              simp only [listenRunAux, hstep] at hab ⊢
              rw [receivedBy_append, receivedBy_broadcastLog]
              simp only [okEvents, hstep, deliveredTo, hs, true_and]
              by_cases ha : accept s k
              · simpa [ha] using ih (k + 1) hab
              · simpa [ha] using ih (k + 1) hab

/-- Helper: a consumer's received sequence is a duplicate-free
subsequence of the broadcast events in original relative order. -/
theorem deliveredTo_sublist (accept : Nat → Bool) :
    ∀ (es : List Event) (k : Nat), (deliveredTo accept k es).Sublist es := by
  intro es
  induction es with
  | nil => intro k; exact List.Sublist.refl []
  | cons e es ih =>
      intro k
      rw [deliveredTo]
      by_cases ha : accept k
      · simpa [ha] using (ih (k + 1)).cons₂ e
      · simpa [ha] using (ih (k + 1)).cons e

/-- C1: for each decoded event the broadcast attempts a non-blocking
enqueue on each subscriber queue independently. On a non-aborting run,
a subscriber attached before the first frame receives exactly the
events whose broadcast attempt its queue accepted (an unaccepted
attempt is dropped, with no retry); its received sequence is a
duplicate-free subsequence of the decoded event stream in original
relative order; and it is unaffected by the readiness of every other
subscriber: any oracle agreeing with `accept` on subscriber `s` gives
`s` the same received sequence. -/
theorem broadcast_best_effort (accept accept2 : Nat → Nat → Bool)
    (nsubs : Nat) (frames : List RecvResult) (s : Nat)
    (hs : s < nsubs)
    (hab : (listenRun accept nsubs frames).aborted = false)
    (hsame : ∀ i, accept2 s i = accept s i) :
    receivedBy (listenRun accept nsubs frames).log s =
      deliveredTo (fun i => accept s i) 0 (okEvents frames) ∧
    (receivedBy (listenRun accept nsubs frames).log s).Sublist (okEvents frames) ∧
    receivedBy (listenRun accept2 nsubs frames).log s =
      receivedBy (listenRun accept nsubs frames).log s := by
  have hab2 : (listenRun accept2 nsubs frames).aborted = false := by
    rw [listenRun, listenRunAux_aborted_oblivious accept2 accept nsubs nsubs frames 0 0]
    exact hab
  have h1 := listenRunAux_receivedBy accept nsubs s hs frames 0 hab
  have h2 := listenRunAux_receivedBy accept2 nsubs s hs frames 0 hab2
  refine ⟨h1, ?_, ?_⟩
  · show (receivedBy (listenRunAux accept nsubs 0 frames).log s).Sublist
      (okEvents frames)
    rw [h1]
    exact deliveredTo_sublist (fun i => accept s i) (okEvents frames) 0
  · show receivedBy (listenRunAux accept2 nsubs 0 frames).log s =
      receivedBy (listenRunAux accept nsubs 0 frames).log s
    rw [h1, h2]
    have he : (fun i => accept2 s i) = (fun i => accept s i) := funext hsame
    rw [he]

/-- Witness for C1 on the concrete stream and oracle: subscriber 0
accepts only the first attempt and receives exactly the first decoded
event. -/
theorem broadcast_best_effort_witness :
    ((0 : Nat) < 2 ∧
     (listenRun sampleAccept 2 sampleFrames).aborted = false) ∧
    receivedBy (listenRun sampleAccept 2 sampleFrames).log 0 =
      deliveredTo (fun i => sampleAccept 0 i) 0 (okEvents sampleFrames) ∧
    (receivedBy (listenRun sampleAccept 2 sampleFrames).log 0).Sublist
      (okEvents sampleFrames) :=
  ⟨⟨Nat.zero_lt_succ 1, rfl⟩,
   (broadcast_best_effort sampleAccept sampleAccept 2 sampleFrames 0
      (Nat.zero_lt_succ 1) rfl (fun _ => rfl)).1,
   (broadcast_best_effort sampleAccept sampleAccept 2 sampleFrames 0
      (Nat.zero_lt_succ 1) rfl (fun _ => rfl)).2.1⟩

/-- Helper: `listen` computes the same run on a stream and on that
stream with receive errors and non-event frames removed. -/
theorem listenRunAux_drop_nonevents (accept : Nat → Nat → Bool) (nsubs : Nat) :
    ∀ (frames : List RecvResult) (k : Nat),
      listenRunAux accept nsubs k frames =
        listenRunAux accept nsubs k (frames.filter isEventFrame) := by
  intro frames
  induction frames with
  | nil => intro k; rfl
  | cons f fs ih =>
      intro k
      cases f with
      | recvErr =>
          simpa [listenRunAux, listenStep, List.filter_cons, isEventFrame]
            using ih k
      | msg m =>
          cases hm : m.isEvent with
          | false =>
              simpa [listenRunAux, listenStep, List.filter_cons, isEventFrame, hm]
                using ih k
          | true =>
              cases had : addDetails m.msgType m.payload with
              | fatal =>
                  simp [listenRunAux, listenStep, List.filter_cons, isEventFrame,
                    hm, had]
              | ok e =>
                  simp [listenRunAux, listenStep, List.filter_cons, isEventFrame,
                    hm, had, ih]

/-- C7: a frame received with a transport error, or not classified as
an event, is discarded with the loop continuing: the whole run — the
delivery log every subscriber's view is drawn from, and the abort
status — is identical to the run on the stream with those frames
removed, so such frames are never observed as an Event by any
subscriber and do not affect the delivery ordering of subsequent event
frames; subscribers only ever see events produced by `addDetails` on
event frames. -/
theorem nonevent_frames_invisible (accept : Nat → Nat → Bool) (nsubs : Nat)
    (frames : List RecvResult) :
    listenRun accept nsubs frames =
      listenRun accept nsubs (frames.filter isEventFrame) ∧
    (∀ s : Nat, receivedBy (listenRun accept nsubs frames).log s =
      receivedBy (listenRun accept nsubs (frames.filter isEventFrame)).log s) := by
  have h := listenRunAux_drop_nonevents accept nsubs frames 0
  refine ⟨h, fun s => ?_⟩
  show receivedBy (listenRunAux accept nsubs 0 frames).log s =
    receivedBy (listenRunAux accept nsubs 0 (frames.filter isEventFrame)).log s
  rw [h]
